import Mathlib

/-!
A shallow embedding of the matching / ranking / deduplication / orchestration
core of the Pheme digest pipeline (`app/pipeline/matching.py` and
`app/pipeline/digest.py`), together with theorems settling the specification
claims about it.

Modelling conventions:
* Python `float` scores are modelled as `ℚ` (all score arithmetic in the
  source is exact on the inputs the claims mention).
* Python `str` is Lean `String`; `str.lower()` is `strLower` (per-character
  `Char.toLower`); `str.count` (non-overlapping substring count, `len+1` for
  the empty needle) is `pyCount`, implemented with a structural fuel argument
  so that it evaluates by kernel reduction.
* Python `dict` values are association lists in insertion order; dict
  assignment `d[k] = v` is `dictInsert` (replace in place, else append);
  `dict.get` style lookups are Lean functions returning `Option`.
* `re.search(pattern, text, re.IGNORECASE)` is an oracle parameter of type
  `RegexSearch := String → String → Except Unit Bool`; `Except.error`
  models `re.error` (an invalid pattern).  The code under test never
  depends on the regex engine itself, only on how results and errors are
  combined.
* `datetime.now(timezone.utc)` is a parameter `now : ℚ` (seconds);
  `article.published_at` is `Option ℚ` (seconds since epoch).
* The asynchronous orchestrator `DigestPipeline.run` is embedded as the pure
  function `runDigest` over a `RunEnv` record holding the results of all its
  external collaborators (fetchers, extractor, summarizer, email sender, DB).
-/

namespace Pheme

/-- `str.lower()`: lowercase every character. -/
def strLower (s : String) : String := String.mk (s.data.map Char.toLower)

/-- Does `needle` occur at the head of `haystack`? -/
def listStartsWith : List Char → List Char → Bool
  | [], _ => true
  | _ :: _, [] => false
  | a :: as, b :: bs => a == b && listStartsWith as bs

/-- Non-overlapping left-to-right occurrence count of a non-empty `needle`,
with a fuel argument (structural, so it reduces in the kernel).  The fuel is
always instantiated with the haystack length, which suffices because every
recursive call strictly shortens the haystack. -/
def countOccFuel (needle : List Char) : Nat → List Char → Nat
  | _, [] => 0
  | 0, _ => 0
  | fuel + 1, c :: rest =>
    if listStartsWith needle (c :: rest) then
      countOccFuel needle fuel (rest.drop (needle.length - 1)) + 1
    else
      countOccFuel needle fuel rest

/-- Python `haystack.count(needle)`: `len(haystack)+1` for an empty needle,
otherwise the non-overlapping occurrence count. -/
def pyCount (needle haystack : String) : Nat :=
  if needle.data.isEmpty then haystack.data.length + 1
  else countOccFuel needle.data haystack.data.length haystack.data

/-- Python `needle in haystack` (substring containment). -/
def containsSub (needle haystack : String) : Bool :=
  pyCount needle haystack != 0

/-- `app.models.Article` (the fields the core reads). -/
structure Article where
  title : String
  url : String
  source_name : String := ""
  category : String := "general"
  published_at : Option ℚ := none
  content_preview : String := ""
  full_text : String := ""
  score : Option ℚ := none
deriving DecidableEq, Repr

/-- `app.models.Topic` (the fields the core reads). -/
structure Topic where
  id : Nat
  name : String
  keywords : List String := []
  include_patterns : List String := []
  exclude_patterns : List String := []
  priority : Nat := 0
  max_articles : Nat := 10
  enabled : Bool := true
deriving DecidableEq, Repr

/-- `app.pipeline.matching.ScoredArticle`. -/
structure ScoredArticle where
  article : Article
  score : ℚ := 0
  matched_keywords : List String := []
deriving DecidableEq, Repr

/-- `_build_searchable_text`: `" ".join([title, content_preview] +
([full_text] if full_text else []))`, lowercased. -/
def build_searchable_text (a : Article) : String :=
  strLower (a.title ++ " " ++ a.content_preview ++
    (if a.full_text ≠ "" then " " ++ a.full_text else ""))

/-- `_keyword_score`: fold over the keywords, accumulating the score and the
matched-keyword list.  (`_keyword_score` receives text that the caller has
already lowercased, and lowercases it again; both are reflected here.) -/
def keyword_score (text : String) (keywords : List String) : ℚ × List String :=
  if keywords = [] then (0, [])
  else
    let text_lower := strLower text
    keywords.foldl
      (fun acc kw =>
        let count := pyCount (strLower kw) text_lower
        if count > 0 then
          (acc.1 + (10 + ((min (count - 1) 5 : ℕ) : ℚ) * 2), acc.2 ++ [kw])
        else acc)
      (0, [])

/-- The per-keyword contribution `_keyword_score` awards: `10 + min(count-1,5)*2`
for a keyword occurring `count > 0` times, `0` otherwise. -/
def keywordContribution (text_lower : String) (kw : String) : ℚ :=
  let count := pyCount (strLower kw) text_lower
  if count > 0 then 10 + ((min (count - 1) 5 : ℕ) : ℚ) * 2 else 0

/-- The outcome of `re.search(pattern, text, re.IGNORECASE)`:
`Except.error ()` models `re.error` (invalid pattern). -/
abbrev RegexSearch := String → String → Except Unit Bool

/-- `_pattern_matches`: return `True` on the first pattern that matches;
an `re.error` is caught, logged, and the pattern skipped. -/
def pattern_matches (search : RegexSearch) (text : String)
    (patterns : List String) : Bool :=
  patterns.any fun p =>
    match search p text with
    | .ok b => b
    | .error _ => false

/-- `_recency_score`, with `now` passed explicitly (seconds). -/
def recency_score (now : ℚ) (a : Article) : ℚ :=
  match a.published_at with
  | none => 5
  | some t =>
    let age_hours := (now - t) / 3600
    if age_hours < 6 then 10
    else if age_hours < 24 then 8
    else if age_hours < 48 then 5
    else if age_hours < 72 then 3
    else 1

/-- `score_article_for_topic`. -/
def score_article_for_topic (search : RegexSearch) (now : ℚ)
    (article : Article) (topic : Topic) : Option ScoredArticle :=
  let text := build_searchable_text article
  if topic.exclude_patterns ≠ [] ∧ pattern_matches search text topic.exclude_patterns then
    none
  else if topic.include_patterns ≠ [] ∧ ¬ (pattern_matches search text topic.include_patterns = true) then
    none
  else
    let ks := keyword_score text topic.keywords
    if topic.keywords ≠ [] ∧ ks.2 = [] then none
    else
      let recency := recency_score now article
      let priority_bonus : ℚ := (topic.priority : ℚ) * (1 / 2)
      let source_bonus : ℚ :=
        match article.score with
        | some s => if s > 0 then min (s / 100) 10 else 0
        | none => 0
      some { article := article
             score := ks.1 + recency + priority_bonus + source_bonus
             matched_keywords := ks.2 }

/-- Stable insertion of `a` into `l`: `a` goes in front of the first element
`b` with `le a b`.  Used to model Python's stable `list.sort`. -/
def insertSorted (le : α → α → Bool) (a : α) : List α → List α
  | [] => [a]
  | b :: l => if le a b then a :: b :: l else b :: insertSorted le a l

/-- Stable insertion sort.  For a total reflexive transitive comparator this
computes exactly Python's stable `list.sort` result (a stable sort is unique). -/
def stableSort (le : α → α → Bool) : List α → List α
  | [] => []
  | a :: l => insertSorted le a (stableSort le l)

/-- `rank_articles_for_topic`: score every article, keep the accepted ones in
input order, sort by score descending (stable, = `sort(key=score, reverse=True)`),
truncate to `topic.max_articles`. -/
def rank_articles_for_topic (search : RegexSearch) (now : ℚ)
    (articles : List Article) (topic : Topic) : List ScoredArticle :=
  let scored := articles.filterMap fun a => score_article_for_topic search now a topic
  (stableSort (fun s₁ s₂ => if s₂.score ≤ s₁.score then true else false) scored).take
    topic.max_articles

/-- Python dict assignment `d[k] = v` on an insertion-ordered association
list: replace in place if the key exists, else append. -/
def dictInsert (d : List (Nat × β)) (k : Nat) (v : β) : List (Nat × β) :=
  match d with
  | [] => [(k, v)]
  | (k', v') :: rest => if k' = k then (k, v) :: rest else (k', v') :: dictInsert rest k v

/-- `match_articles_to_topics`: for each enabled topic, rank; store the result
under the topic id when non-empty. -/
def match_articles_to_topics (search : RegexSearch) (now : ℚ)
    (articles : List Article) (topics : List Topic) :
    List (Nat × List ScoredArticle) :=
  topics.foldl
    (fun result topic =>
      if topic.enabled = false then result
      else if rank_articles_for_topic search now articles topic ≠ [] then
        dictInsert result topic.id (rank_articles_for_topic search now articles topic)
      else result)
    []

/-- The dict `{t.id: t for t in topics}` as a lookup function (last topic with
a given id wins, as in a dict comprehension). -/
def topicsById (topics : List Topic) : Nat → Option Topic :=
  fun tid => topics.reverse.find? fun t => t.id == tid

/-- `_sort_key` of `deduplicate_across_topics`: `(-score, -priority, name)`,
with priority `0` and name `""` for an unknown topic id. -/
def dedupSortKey (tbi : Nat → Option Topic) (entry : Nat × ℚ) : ℚ × Int × String :=
  match tbi entry.1 with
  | some topic => (-entry.2, -(topic.priority : Int), topic.name)
  | none => (-entry.2, 0, "")

/-- Lexicographic `≤` on the Python sort-key triples (how `list.sort` compares
`(-score, -priority, name)` tuples). -/
def keyLE (k₁ k₂ : ℚ × Int × String) : Bool :=
  if k₁.1 < k₂.1 then true
  else if k₁.1 = k₂.1 then
    if k₁.2.1 < k₂.2.1 then true
    else if k₁.2.1 = k₂.2.1 then
      if k₁.2.2 < k₂.2.2 then true else if k₁.2.2 = k₂.2.2 then true else false
    else false
  else false

/-- Step 1 of `deduplicate_across_topics`, read off per URL: the
`url_to_entries[url]` list of `(topic_id, score)` pairs, in the order the
nested iteration appends them. -/
def urlEntries (matched : List (Nat × List ScoredArticle)) (url : String) :
    List (Nat × ℚ) :=
  matched.flatMap fun p =>
    p.2.filterMap fun sa =>
      if sa.article.url = url then some (p.1, sa.score) else none

/-- Step 2 of `deduplicate_across_topics`, read off per (topic, URL):
`url ∈ urls_to_remove[tid]` iff the URL occurs at least twice overall and
`tid` appears among the non-winning entries (`entries[1:]` after the stable
sort by `_sort_key`). -/
def removedUrl (matched : List (Nat × List ScoredArticle))
    (tbi : Nat → Option Topic) (tid : Nat) (url : String) : Bool :=
  let entries := urlEntries matched url
  if entries.length ≤ 1 then false
  else
    let sorted := stableSort
      (fun e₁ e₂ => keyLE (dedupSortKey tbi e₁) (dedupSortKey tbi e₂)) entries
    if tid ∈ sorted.tail.map Prod.fst then true else false

/-- `deduplicate_across_topics`: early-return `{}` on empty input, else
rebuild every topic's list with the marked URLs filtered out. -/
def deduplicate_across_topics (matched : List (Nat × List ScoredArticle))
    (tbi : Nat → Option Topic) : List (Nat × List ScoredArticle) :=
  if matched = [] then []
  else
    matched.map fun p =>
      (p.1, p.2.filter fun sa => ! removedUrl matched tbi p.1 sa.article.url)

/-- `filter_blocked_articles`. -/
def filter_blocked_articles (articles : List Article)
    (blocked_keywords : List String) (use_full_text : Bool) : List Article :=
  if blocked_keywords = [] then articles
  else
    let keywords_lower := blocked_keywords.map strLower
    articles.filter fun a =>
      let body := if use_full_text then a.full_text else a.content_preview
      let searchable := strLower (a.title ++ " " ++ body)
      ! keywords_lower.any fun kw => containsSub kw searchable

/-- `app.models.DigestEntry`. -/
structure DigestEntry where
  article : Article
  summary : String
deriving DecidableEq, Repr

/-- `app.models.TopicSection`. -/
structure TopicSection where
  topic_name : String
  topic_id : Nat
  entries : List DigestEntry
deriving DecidableEq, Repr

/-- `app.models.Digest` (the fields the orchestrator sets that the claims
read; `generated_at` is omitted). -/
structure Digest where
  entries : List DigestEntry
  topic_sections : List TopicSection
  summary : String
  model_name : String
  source_count : Nat
  article_count : Nat
deriving DecidableEq, Repr

/-- The record `DigestPipeline.run` passes to `log_digest`. -/
structure DigestLogRecord where
  recipient : String
  source_count : Nat
  article_count : Nat
  entry_count : Nat
  status : String
deriving DecidableEq, Repr

/-- The results of all external collaborators of one `DigestPipeline.run`
invocation: per enabled source either the fetched articles or `none` (the
fetcher raised), the full-text extractor, the persisted blocklist and scope
setting, the enabled topics, the summarizer's outputs, and the email
sender's result. -/
structure RunEnv where
  search : RegexSearch
  now : ℚ
  fetch_results : List (Option (List Article))
  extractor : String → Option String
  blocked_keywords : List String
  use_full_text : Bool
  topics : List Topic
  summarize_one : Article → String
  overview_summary : String
  flat_summary : String
  model_name : String
  recipient : String
  email_ok : Bool

/-- The Enrich step for one article: populate `full_text` if it is empty and
extraction succeeds; extraction failure leaves the article unchanged. -/
def enrichArticle (extractor : String → Option String) (a : Article) : Article :=
  if a.full_text ≠ "" then a
  else
    match extractor a.url with
    | some text => { a with full_text := text }
    | none => a

/-- `all_articles` after Fetch (failed sources contribute nothing), Enrich,
and the guarded blocklist filter (`if blocked_keywords: ...`). -/
def pipelineArticles (env : RunEnv) : List Article :=
  let fetched := (env.fetch_results.filterMap id).flatten
  let enriched := fetched.map (enrichArticle env.extractor)
  if env.blocked_keywords ≠ [] then
    filter_blocked_articles enriched env.blocked_keywords env.use_full_text
  else enriched

/-- `matches` after the Matcher and the Deduplicator. -/
def pipelineMatches (env : RunEnv) : List (Nat × List ScoredArticle) :=
  deduplicate_across_topics
    (match_articles_to_topics env.search env.now (pipelineArticles env) env.topics)
    (topicsById env.topics)

/-- The topic sections `run` builds: one per key of the deduplicated mapping,
in mapping order, with one summarized entry per scored article.  (The Python
`topics_by_id[topic_id]` lookup cannot fail for matcher-produced keys; the
unreachable miss is modelled as skipping the key.) -/
def pipelineSections (env : RunEnv) : List TopicSection :=
  if env.topics ≠ [] then
    (pipelineMatches env).filterMap fun p =>
      match topicsById env.topics p.1 with
      | some topic =>
        some { topic_name := topic.name
               topic_id := topic.id
               entries := p.2.map fun sa =>
                 { article := sa.article, summary := env.summarize_one sa.article } }
      | none => none
  else []

/-- `DigestPipeline.run`: assemble the digest and the log record.
`entry_count` is Python's `sum(...) or len(entries)`; `status` is
`"sent" if email_sent else ("completed" if not recipient else "email_failed")`. -/
def runDigest (env : RunEnv) : Digest × DigestLogRecord :=
  let all_articles := pipelineArticles env
  let topic_sections := pipelineSections env
  let summaryText :=
    if topic_sections ≠ [] then env.overview_summary else env.flat_summary
  let entries := all_articles.map fun a =>
    { article := a
      summary := if a.content_preview ≠ "" then a.content_preview else a.title
      : DigestEntry }
  let digest : Digest :=
    { entries := entries
      topic_sections := topic_sections
      summary := summaryText
      model_name := env.model_name
      source_count := env.fetch_results.length
      article_count := all_articles.length }
  let email_sent := if env.recipient ≠ "" then env.email_ok else false
  let section_total := (topic_sections.map fun ts => ts.entries.length).sum
  let entry_count := if section_total ≠ 0 then section_total else entries.length
  let status :=
    if email_sent then "sent"
    else if env.recipient = "" then "completed"
    else "email_failed"
  (digest,
   { recipient := env.recipient
     source_count := env.fetch_results.length
     article_count := all_articles.length
     entry_count := entry_count
     status := status })

/-! ### Generic facts about the stable insertion sort -/

theorem insertSorted_perm (le : α → α → Bool) (a : α) (l : List α) :
    (insertSorted le a l).Perm (a :: l) := by
  induction l with
  | nil => simp [insertSorted]
  | cons b t ih =>
    simp only [insertSorted]
    by_cases h : le a b = true
    · rw [if_pos h]
    · rw [if_neg h]
      exact (ih.cons b).trans (List.Perm.swap a b t)

theorem stableSort_perm (le : α → α → Bool) (l : List α) :
    (stableSort le l).Perm l := by
  induction l with
  | nil => simp [stableSort]
  | cons a t ih =>
    exact (insertSorted_perm le a (stableSort le t)).trans (ih.cons a)

theorem mem_insertSorted (le : α → α → Bool) (a x : α) (l : List α) :
    x ∈ insertSorted le a l ↔ x = a ∨ x ∈ l := by
  rw [(insertSorted_perm le a l).mem_iff, List.mem_cons]

theorem insertSorted_pairwise {le : α → α → Bool}
    (total : ∀ a b, le a b = true ∨ le b a = true)
    (trans : ∀ a b c, le a b = true → le b c = true → le a c = true)
    (a : α) (l : List α) (h : l.Pairwise fun x y => le x y = true) :
    (insertSorted le a l).Pairwise fun x y => le x y = true := by
  induction l with
  | nil => simp [insertSorted]
  | cons b t ih =>
    rcases List.pairwise_cons.mp h with ⟨hb, ht⟩
    by_cases hab : le a b = true
    · rw [insertSorted, if_pos hab]
      refine List.pairwise_cons.mpr ⟨?_, h⟩
      intro y hy
      rcases List.mem_cons.mp hy with rfl | hyt
      · exact hab
      · exact trans a b y hab (hb y hyt)
    · rw [insertSorted, if_neg (by simp [hab])]
      refine List.pairwise_cons.mpr ⟨?_, ih ht⟩
      intro y hy
      rcases (mem_insertSorted le a y t).mp hy with hya | hyt
      · subst hya
        rcases total y b with h' | h'
        · exact absurd h' hab
        · exact h'
      · exact hb y hyt

theorem stableSort_pairwise {le : α → α → Bool}
    (total : ∀ a b, le a b = true ∨ le b a = true)
    (trans : ∀ a b c, le a b = true → le b c = true → le a c = true)
    (l : List α) :
    (stableSort le l).Pairwise fun x y => le x y = true := by
  induction l with
  | nil => simp [stableSort]
  | cons a t ih => exact insertSorted_pairwise total trans a (stableSort le t) ih

/--
**C2.**  For every article list `A` and topic `T`, `rank_articles_for_topic A T`
returns at most `T.max_articles` elements, and the returned list is sorted by
score in descending order.
-/
theorem rank_articles_length_le_and_sorted (search : RegexSearch) (now : ℚ)
    (articles : List Article) (topic : Topic) :
    (rank_articles_for_topic search now articles topic).length ≤ topic.max_articles ∧
    (rank_articles_for_topic search now articles topic).Pairwise
      fun s₁ s₂ => s₂.score ≤ s₁.score := by
  constructor
  · rw [rank_articles_for_topic]
    rw [List.length_take]
    exact min_le_left _ _
  · rw [rank_articles_for_topic]
    have hsorted := @stableSort_pairwise ScoredArticle
      (fun s₁ s₂ : ScoredArticle => if s₂.score ≤ s₁.score then true else false)
      (fun a b => by
        rcases le_total b.score a.score with h | h
        · exact Or.inl (by simp [h])
        · exact Or.inr (by simp [h]))
      (fun a b c hab hbc => by
        by_cases h1 : b.score ≤ a.score
        · by_cases h2 : c.score ≤ b.score
          · simp [le_trans h2 h1]
          · simp [h2] at hbc
        · simp [h1] at hab)
      (articles.filterMap fun a => score_article_for_topic search now a topic)
    have := List.Pairwise.sublist (List.take_sublist topic.max_articles _) hsorted
    refine this.imp ?_
    intro a b h
    by_cases hb : b.score ≤ a.score
    · exact hb
    · simp [hb] at h

/-! ### Counting occurrences of a URL across the deduplicator's structures -/

/-- Total number of `ScoredArticle`s with the given URL across all topic
lists of the mapping (counted with multiplicity). -/
def urlCount (matched : List (Nat × List ScoredArticle)) (url : String) : Nat :=
  (matched.map fun p => p.2.countP fun sa => decide (sa.article.url = url)).sum

theorem countP_filterMap_url (tid : Nat) (sas : List ScoredArticle) (url : String)
    (P : Nat → Bool) :
    ((sas.filterMap fun sa =>
        if sa.article.url = url then some (tid, sa.score) else none).countP
      fun e => P e.1)
      = if P tid = true then sas.countP (fun sa => decide (sa.article.url = url)) else 0 := by
  induction sas with
  | nil =>
    simp only [List.filterMap_nil, List.countP_nil]
    cases hP : P tid <;> simp
  | cons sa t ih =>
    by_cases hu : sa.article.url = url
    · rw [List.filterMap_cons, if_pos hu, List.countP_cons, ih, List.countP_cons]
      cases hP : P tid <;> simp [hu]
    · rw [List.filterMap_cons, if_neg hu, ih, List.countP_cons]
      cases hP : P tid <;> simp [hu]

theorem countP_urlEntries (matched : List (Nat × List ScoredArticle)) (url : String)
    (P : Nat → Bool) :
    (urlEntries matched url).countP (fun e => P e.1)
      = (matched.map fun p =>
          if P p.1 = true then p.2.countP (fun sa => decide (sa.article.url = url)) else 0).sum := by
  induction matched with
  | nil => simp [urlEntries]
  | cons p m ih =>
    rw [urlEntries, List.flatMap_cons, List.countP_append]
    rw [urlEntries] at ih
    rw [ih, countP_filterMap_url, List.map_cons, List.sum_cons]

theorem length_urlEntries (matched : List (Nat × List ScoredArticle)) (url : String) :
    (urlEntries matched url).length = urlCount matched url := by
  have h := countP_urlEntries matched url (fun _ => true)
  simpa [List.countP_true, urlCount] using h

theorem removedUrl_of_count_le_one {matched : List (Nat × List ScoredArticle)}
    {url : String} (tbi : Nat → Option Topic) (tid : Nat)
    (h : urlCount matched url ≤ 1) :
    removedUrl matched tbi tid url = false := by
  rw [removedUrl]
  rw [if_pos]
  rw [length_urlEntries]
  exact h

theorem urlCount_dedup_le_one (matched : List (Nat × List ScoredArticle))
    (tbi : Nat → Option Topic) (url : String) :
    urlCount (deduplicate_across_topics matched tbi) url ≤ 1 := by
  by_cases hm : matched = []
  · subst hm
    simp [deduplicate_across_topics, urlCount]
  · rw [deduplicate_across_topics, if_neg hm]
    have hmap :
        urlCount
          (matched.map fun p =>
            (p.1, p.2.filter fun sa => ! removedUrl matched tbi p.1 sa.article.url)) url
        = (matched.map fun p =>
            if (! removedUrl matched tbi p.1 url) = true then
              p.2.countP (fun sa => decide (sa.article.url = url))
            else 0).sum := by
      rw [urlCount, List.map_map]
      congr 1
      apply List.map_congr_left
      intro p _
      show (p.2.filter fun sa => ! removedUrl matched tbi p.1 sa.article.url).countP
          (fun sa => decide (sa.article.url = url)) = _
      rw [List.countP_filter]
      by_cases hr : removedUrl matched tbi p.1 url = true
      · rw [if_neg (by simp [hr])]
        apply List.countP_eq_zero.mpr
        intro sa _
        by_cases hu : sa.article.url = url
        · simp [hu, hr]
        · simp [hu]
      · rw [if_pos (by simp [hr])]
        apply List.countP_congr
        intro sa _
        by_cases hu : sa.article.url = url
        · simp [hu, hr]
        · simp [hu]
    rw [hmap, ← countP_urlEntries matched url
      (fun tid => ! removedUrl matched tbi tid url)]
    by_cases hlen : (urlEntries matched url).length ≤ 1
    · exact le_trans (List.countP_le_length _) hlen
    · have hrem : ∀ t, removedUrl matched tbi t url
          = if t ∈ (stableSort
              (fun e₁ e₂ => keyLE (dedupSortKey tbi e₁) (dedupSortKey tbi e₂))
              (urlEntries matched url)).tail.map Prod.fst then true else false := by
        intro t
        rw [removedUrl, if_neg hlen]
      have hperm : (stableSort
          (fun e₁ e₂ => keyLE (dedupSortKey tbi e₁) (dedupSortKey tbi e₂))
          (urlEntries matched url)).Perm (urlEntries matched url) := stableSort_perm _ _
      rw [← hperm.countP_eq]
      cases hS : stableSort
          (fun e₁ e₂ => keyLE (dedupSortKey tbi e₁) (dedupSortKey tbi e₂))
          (urlEntries matched url) with
      | nil => simp
      | cons s0 st =>
        rw [List.countP_cons]
        have hst : st.countP (fun e => ! removedUrl matched tbi e.1 url) = 0 := by
          apply List.countP_eq_zero.mpr
          intro e he
          rw [hrem e.1, hS]
          have hmem : e.1 ∈ (s0 :: st).tail.map Prod.fst :=
            List.mem_map_of_mem Prod.fst he
          simp only [hmem, if_pos]
          simp
        rw [hst]
        split <;> simp

theorem dedup_preserves_keys (matched : List (Nat × List ScoredArticle))
    (tbi : Nat → Option Topic) :
    (deduplicate_across_topics matched tbi).map Prod.fst = matched.map Prod.fst := by
  by_cases hm : matched = []
  · subst hm
    simp [deduplicate_across_topics]
  · rw [deduplicate_across_topics, if_neg hm, List.map_map]
    apply List.map_congr_left
    intro p _
    rfl

theorem dedup_identity_of_unique (matched : List (Nat × List ScoredArticle))
    (tbi : Nat → Option Topic) (h : ∀ url, urlCount matched url ≤ 1) :
    deduplicate_across_topics matched tbi = matched := by
  by_cases hm : matched = []
  · subst hm
    simp [deduplicate_across_topics]
  · rw [deduplicate_across_topics, if_neg hm]
    have hid : ∀ p ∈ matched,
        (p.1, p.2.filter fun sa => ! removedUrl matched tbi p.1 sa.article.url) = p := by
      intro p _
      have hfilter :
          (p.2.filter fun sa => ! removedUrl matched tbi p.1 sa.article.url) = p.2 := by
        apply List.filter_eq_self.mpr
        intro sa _
        rw [removedUrl_of_count_le_one tbi p.1 (h sa.article.url)]
        rfl
      rw [hfilter]
    calc matched.map (fun p =>
          (p.1, p.2.filter fun sa => ! removedUrl matched tbi p.1 sa.article.url))
        = matched.map id := List.map_congr_left hid
      _ = matched := List.map_id matched

/--
**C8.**  Deduplication is idempotent: running `deduplicate_across_topics` on
its own output (with the same topic lookup) changes nothing.
-/
theorem deduplicate_idempotent (matched : List (Nat × List ScoredArticle))
    (tbi : Nat → Option Topic) :
    deduplicate_across_topics (deduplicate_across_topics matched tbi) tbi
      = deduplicate_across_topics matched tbi :=
  dedup_identity_of_unique _ tbi fun url => urlCount_dedup_le_one matched tbi url

theorem countP_topics_containing_le (l : List (Nat × List ScoredArticle)) (url : String) :
    (l.countP fun p => p.2.any fun sa => decide (sa.article.url = url)) ≤ urlCount l url := by
  induction l with
  | nil => simp [urlCount]
  | cons p m ih =>
    rw [List.countP_cons, urlCount, List.map_cons, List.sum_cons]
    rw [urlCount] at ih
    have h2 : (if (p.2.any fun sa => decide (sa.article.url = url)) = true then 1 else 0)
        ≤ p.2.countP fun sa => decide (sa.article.url = url) := by
      split
      · rename_i hany
        rcases List.any_eq_true.mp hany with ⟨sa, hsa, hu⟩
        exact List.countP_pos_iff.mpr ⟨sa, hsa, hu⟩
      · exact Nat.zero_le _
    omega

/--
**C1.**  After `deduplicate_across_topics`, every topic id of the input
mapping is still present (in order, so a topic that lost all its articles
keeps an empty list instead of being omitted), and no article URL appears in
more than one topic's article list (indeed at most one topic list contains
it at all).
-/
theorem deduplicate_unique_urls_and_keys (matched : List (Nat × List ScoredArticle))
    (tbi : Nat → Option Topic) :
    ((deduplicate_across_topics matched tbi).map Prod.fst = matched.map Prod.fst) ∧
    ∀ url, ((deduplicate_across_topics matched tbi).countP
        fun p => p.2.any fun sa => decide (sa.article.url = url)) ≤ 1 :=
  ⟨dedup_preserves_keys matched tbi,
   fun url => le_trans (countP_topics_containing_le _ url)
     (urlCount_dedup_le_one matched tbi url)⟩

/-! ### The deduplication tie-break chain -/

theorem two_entry_tiebreak (tbi : Nat → Option Topic) (t1 t2 : Nat) (T1 T2 : Topic)
    (s1 s2 : ℚ) (h1 : tbi t1 = some T1) (h2 : tbi t2 = some T2)
    (hwin : s2 < s1 ∨ (s1 = s2 ∧ (T2.priority < T1.priority ∨
      (T1.priority = T2.priority ∧ T1.name < T2.name)))) :
    keyLE (dedupSortKey tbi (t1, s1)) (dedupSortKey tbi (t2, s2)) = true ∧
    keyLE (dedupSortKey tbi (t2, s2)) (dedupSortKey tbi (t1, s1)) = false := by
  have hk1 : dedupSortKey tbi (t1, s1) = (-s1, -(T1.priority : Int), T1.name) := by
    rw [dedupSortKey, h1]
  have hk2 : dedupSortKey tbi (t2, s2) = (-s2, -(T2.priority : Int), T2.name) := by
    rw [dedupSortKey, h2]
  rw [hk1, hk2, keyLE, keyLE]
  rcases hwin with hslt | ⟨hseq, htie⟩
  · have hneg : -s1 < -s2 := neg_lt_neg hslt
    constructor
    · rw [if_pos hneg]
    · rw [if_neg (asymm hneg), if_neg (fun heq => absurd heq.symm (ne_of_lt hneg))]
  subst hseq
  rw [if_neg (lt_irrefl (-s1)), if_neg (lt_irrefl (-s1))]
  rw [if_pos (rfl : -s1 = -s1), if_pos (rfl : -s1 = -s1)]
  rcases htie with hp | ⟨hpe, hn⟩
  · have hplt : -(T1.priority : Int) < -(T2.priority : Int) := by
      apply neg_lt_neg
      exact_mod_cast hp
    constructor
    · rw [if_pos hplt]
    · rw [if_neg (asymm hplt), if_neg (by
        intro heq
        exact absurd heq.symm (ne_of_lt hplt))]
  · have hpeq : -(T1.priority : Int) = -(T2.priority : Int) := by
      rw [hpe]
    constructor
    · rw [if_neg (by rw [hpeq]; exact lt_irrefl _), if_pos hpeq, if_pos hn]
    · rw [if_neg (by rw [hpeq]; exact lt_irrefl _), if_pos hpeq.symm,
        if_neg (asymm hn), if_neg (Ne.symm (ne_of_lt hn))]

/--
**C3.**  When one URL appears under two topics, the deduplicator keeps it only
in the topic chosen by the sort key `(-score, -priority, name)`: the higher
score wins; with equal scores the higher-priority topic wins; and with equal
scores and priorities the lexically smaller topic name wins — independently
of the order of the input mapping.  (The Bravo/Alpha scenario of the spec is
the witness below.)
-/
theorem deduplicate_tiebreak_winner (tbi : Nat → Option Topic) (t1 t2 : Nat)
    (T1 T2 : Topic) (sa1 sa2 : ScoredArticle)
    (hne : t1 ≠ t2)
    (h1 : tbi t1 = some T1) (h2 : tbi t2 = some T2)
    (hurl : sa1.article.url = sa2.article.url)
    (hwin : sa2.score < sa1.score ∨ (sa1.score = sa2.score ∧
      (T2.priority < T1.priority ∨
        (T1.priority = T2.priority ∧ T1.name < T2.name)))) :
    deduplicate_across_topics [(t1, [sa1]), (t2, [sa2])] tbi
        = [(t1, [sa1]), (t2, [])] ∧
    deduplicate_across_topics [(t2, [sa2]), (t1, [sa1])] tbi
        = [(t2, []), (t1, [sa1])] := by
  have hkey := two_entry_tiebreak tbi t1 t2 T1 T2 sa1.score sa2.score h1 h2 hwin
  have hE : urlEntries [(t1, [sa1]), (t2, [sa2])] sa1.article.url
      = [(t1, sa1.score), (t2, sa2.score)] := by
    simp [urlEntries, ← hurl]
  have hE2 : urlEntries [(t1, [sa1]), (t2, [sa2])] sa2.article.url
      = [(t1, sa1.score), (t2, sa2.score)] := by
    rw [← hurl]
    exact hE
  have hF : urlEntries [(t2, [sa2]), (t1, [sa1])] sa1.article.url
      = [(t2, sa2.score), (t1, sa1.score)] := by
    simp [urlEntries, ← hurl]
  have hF2 : urlEntries [(t2, [sa2]), (t1, [sa1])] sa2.article.url
      = [(t2, sa2.score), (t1, sa1.score)] := by
    rw [← hurl]
    exact hF
  have hS1 : stableSort
      (fun e₁ e₂ => keyLE (dedupSortKey tbi e₁) (dedupSortKey tbi e₂))
      [(t1, sa1.score), (t2, sa2.score)] = [(t1, sa1.score), (t2, sa2.score)] := by
    simp [stableSort, insertSorted, hkey.1]
  have hS2 : stableSort
      (fun e₁ e₂ => keyLE (dedupSortKey tbi e₁) (dedupSortKey tbi e₂))
      [(t2, sa2.score), (t1, sa1.score)] = [(t1, sa1.score), (t2, sa2.score)] := by
    simp [stableSort, insertSorted, hkey.2]
  have hrem11 : removedUrl [(t1, [sa1]), (t2, [sa2])] tbi t1 sa1.article.url = false := by
    rw [removedUrl]
    simp only [hE, hS1]
    simp [hne]
  have hrem12 : removedUrl [(t1, [sa1]), (t2, [sa2])] tbi t2 sa2.article.url = true := by
    rw [removedUrl]
    simp only [hE2, hS1]
    simp
  have hrem21 : removedUrl [(t2, [sa2]), (t1, [sa1])] tbi t1 sa1.article.url = false := by
    rw [removedUrl]
    simp only [hF, hS2]
    simp [hne]
  have hrem22 : removedUrl [(t2, [sa2]), (t1, [sa1])] tbi t2 sa2.article.url = true := by
    rw [removedUrl]
    simp only [hF2, hS2]
    simp
  constructor
  · rw [deduplicate_across_topics, if_neg (by simp)]
    simp [hrem11, hrem12]
  · rw [deduplicate_across_topics, if_neg (by simp)]
    simp [hrem21, hrem22]

/-! ### Keyword scoring, pattern handling, blocklist scope -/

theorem keyword_score_foldl (text_lower : String) (ks : List String)
    (acc : ℚ × List String) :
    (ks.foldl
      (fun acc kw =>
        let count := pyCount (strLower kw) text_lower
        if count > 0 then
          (acc.1 + (10 + ((min (count - 1) 5 : ℕ) : ℚ) * 2), acc.2 ++ [kw])
        else acc)
      acc).1
      = acc.1 + (ks.map (keywordContribution text_lower)).sum := by
  induction ks generalizing acc with
  | nil => simp
  | cons kw t ih =>
    rw [List.foldl_cons, ih, List.map_cons, List.sum_cons]
    by_cases hc : pyCount (strLower kw) text_lower > 0
    · rw [keywordContribution]
      simp only [hc, if_pos]
      rw [add_assoc]
    · rw [keywordContribution]
      simp only [hc, if_neg, if_false]
      rw [zero_add]

/--
**C4.**  The keyword score is the sum, over all keywords, of the per-keyword
contribution `10 + min(count−1, 5) * 2` for a keyword occurring `count > 0`
times (and `0` otherwise); in particular a single keyword occurring 3 times
contributes exactly `14`.
-/
theorem keyword_score_is_sum_of_contributions :
    (∀ (text : String) (keywords : List String),
      (keyword_score text keywords).1
        = (keywords.map (keywordContribution (strLower text))).sum) ∧
    pyCount (strLower "neural network")
        (strLower "AI breakthrough: neural network neural network neural network") = 3 ∧
    (keyword_score "AI breakthrough: neural network neural network neural network"
        ["neural network"]).1 = 14 := by
  refine ⟨?_, by decide, by with_unfolding_all decide⟩
  intro text keywords
  rw [keyword_score]
  by_cases hk : keywords = []
  · subst hk
    simp
  · rw [if_neg hk, keyword_score_foldl, zero_add]

/--
**C7.**  A topic with non-empty `exclude_patterns` rejects (returns no
`ScoredArticle` for) every article whose searchable text is matched by at
least one exclude pattern, regardless of keywords or include patterns.
-/
theorem exclude_pattern_rejects (search : RegexSearch) (now : ℚ) (a : Article)
    (t : Topic) (hne : t.exclude_patterns ≠ [])
    (hmatch : ∃ p ∈ t.exclude_patterns,
      search p (build_searchable_text a) = .ok true) :
    score_article_for_topic search now a t = none := by
  have hp : pattern_matches search (build_searchable_text a) t.exclude_patterns
      = true := by
    rcases hmatch with ⟨p, hmem, hok⟩
    apply List.any_eq_true.mpr
    exact ⟨p, hmem, by rw [hok]⟩
  simp only [score_article_for_topic]
  rw [if_pos ⟨hne, hp⟩]

/-- The oracle obtained from `search` by replacing every `re.error` outcome
(an invalid pattern) with "no match" — which is what the `try/except` in
`_pattern_matches` implements. -/
def errorsAsNoMatch (search : RegexSearch) : RegexSearch := fun p t =>
  match search p t with
  | .ok b => .ok b
  | .error _ => .ok false

/--
**C9.**  An invalid (erroring) regex pattern never makes `_pattern_matches`
or `score_article_for_topic` fail: both are total functions, and their
results are exactly what they would be if every erroring pattern were
replaced by a pattern that matches nothing, with all other patterns still
evaluated normally.
-/
theorem invalid_patterns_are_no_match :
    (∀ (search : RegexSearch) (text : String) (patterns : List String),
      pattern_matches (errorsAsNoMatch search) text patterns
        = pattern_matches search text patterns) ∧
    (∀ (search : RegexSearch) (now : ℚ) (a : Article) (t : Topic),
      score_article_for_topic (errorsAsNoMatch search) now a t
        = score_article_for_topic search now a t) := by
  have hpm : ∀ (search : RegexSearch) (text : String) (patterns : List String),
      pattern_matches (errorsAsNoMatch search) text patterns
        = pattern_matches search text patterns := by
    intro search text patterns
    rw [pattern_matches, pattern_matches]
    induction patterns with
    | nil => rfl
    | cons p t ih =>
      rw [List.any_cons, List.any_cons, ih]
      rw [errorsAsNoMatch]
      cases hsp : search p text with
      | ok b => rfl
      | error e => rfl
  refine ⟨hpm, ?_⟩
  intro search now a t
  simp only [score_article_for_topic]
  rw [hpm, hpm]

/--
**C10.**  With full-text scope enabled, the blocklist filter searches only
title + full text: an article whose blocked term occurs only in the
title + preview text (and nowhere in the title + full-text text) survives
`use_full_text := true` but is removed with `use_full_text := false`.
-/
theorem blocklist_full_text_scope (articles : List Article) (a : Article)
    (blocked : List String) (hmem : a ∈ articles)
    (hclean : ∀ kw ∈ blocked,
      containsSub (strLower kw) (strLower (a.title ++ " " ++ a.full_text)) = false)
    (hprev : ∃ kw ∈ blocked,
      containsSub (strLower kw) (strLower (a.title ++ " " ++ a.content_preview)) = true) :
    a ∈ filter_blocked_articles articles blocked true ∧
    a ∉ filter_blocked_articles articles blocked false := by
  obtain ⟨kw0, hkw0, hc0⟩ := hprev
  have hnb : blocked ≠ [] := by
    intro h
    subst h
    exact absurd hkw0 (List.not_mem_nil kw0)
  constructor
  · rw [filter_blocked_articles, if_neg hnb]
    apply List.mem_filter.mpr
    refine ⟨hmem, ?_⟩
    show (!(blocked.map strLower).any fun kw =>
      containsSub kw (strLower (a.title ++ " " ++ a.full_text))) = true
    rw [Bool.not_eq_true']
    apply List.any_eq_false.mpr
    intro kw hkw
    rcases List.mem_map.mp hkw with ⟨kw', hkw', rfl⟩
    intro hcontra
    rw [hclean kw' hkw'] at hcontra
    exact Bool.false_ne_true hcontra
  · intro hcontra
    rw [filter_blocked_articles, if_neg hnb] at hcontra
    have hpred : (!(blocked.map strLower).any fun kw =>
        containsSub kw (strLower (a.title ++ " " ++ a.content_preview))) = true :=
      (List.mem_filter.mp hcontra).2
    rw [Bool.not_eq_true'] at hpred
    have h2 := List.any_eq_false.mp hpred (strLower kw0)
      (List.mem_map_of_mem strLower hkw0)
    exact h2 hc0

/-! ### Orchestrator: topic sections and the digest log -/

theorem dictInsert_keys {β : Type} (d : List (Nat × β)) (k : Nat) (v : β) (k' : Nat)
    (h : k' ∈ (dictInsert d k v).map Prod.fst) :
    k' ∈ d.map Prod.fst ∨ k' = k := by
  induction d with
  | nil =>
    rw [dictInsert] at h
    simp at h
    exact Or.inr h
  | cons p rest ih =>
    rcases p with ⟨k0, v0⟩
    rw [dictInsert] at h
    by_cases hk : k0 = k
    · rw [if_pos hk] at h
      rw [List.map_cons, List.mem_cons] at h
      rcases h with rfl | h'
      · exact Or.inr rfl
      · exact Or.inl (by rw [List.map_cons, List.mem_cons]; exact Or.inr h')
    · rw [if_neg hk] at h
      rw [List.map_cons, List.mem_cons] at h
      rcases h with rfl | h'
      · exact Or.inl (by rw [List.map_cons, List.mem_cons]; exact Or.inl rfl)
      · rcases ih h' with hd | hk'
        · exact Or.inl (by rw [List.map_cons, List.mem_cons]; exact Or.inr hd)
        · exact Or.inr hk'

theorem match_articles_keys (search : RegexSearch) (now : ℚ) (arts : List Article)
    (topics : List Topic) (k : Nat)
    (h : k ∈ (match_articles_to_topics search now arts topics).map Prod.fst) :
    ∃ t ∈ topics, t.id = k := by
  rw [match_articles_to_topics] at h
  have aux : ∀ (ts : List Topic) (acc : List (Nat × List ScoredArticle)),
      k ∈ (ts.foldl
        (fun result topic =>
          if topic.enabled = false then result
          else if rank_articles_for_topic search now arts topic ≠ [] then
            dictInsert result topic.id (rank_articles_for_topic search now arts topic)
          else result)
        acc).map Prod.fst →
      k ∈ acc.map Prod.fst ∨ ∃ t ∈ ts, t.id = k := by
    intro ts
    induction ts with
    | nil =>
      intro acc h'
      exact Or.inl h'
    | cons t rest ih =>
      intro acc h'
      rw [List.foldl_cons] at h'
      rcases ih _ h' with hacc | ⟨t', ht', hid⟩
      · by_cases he : t.enabled = false
        · rw [if_pos he] at hacc
          exact Or.inl hacc
        · rw [if_neg he] at hacc
          by_cases hr : rank_articles_for_topic search now arts t ≠ []
          · rw [if_pos hr] at hacc
            rcases dictInsert_keys _ _ _ _ hacc with hd | hk
            · exact Or.inl hd
            · exact Or.inr ⟨t, List.mem_cons_self t rest, hk.symm⟩
          · rw [if_neg hr] at hacc
            exact Or.inl hacc
      · exact Or.inr ⟨t', List.mem_cons_of_mem t ht', hid⟩
  rcases aux topics [] h with habs | hgoal
  · simp at habs
  · exact hgoal

theorem topicsById_resolves (topics : List Topic) (k : Nat)
    (h : ∃ t ∈ topics, t.id = k) :
    ∃ T, topicsById topics k = some T ∧ T.id = k := by
  have hsome : ((topics.reverse).find? fun t => t.id == k).isSome := by
    apply List.find?_isSome.mpr
    rcases h with ⟨t, ht, hid⟩
    exact ⟨t, List.mem_reverse.mpr ht, by simp [hid]⟩
  rcases Option.isSome_iff_exists.mp hsome with ⟨T, hT⟩
  refine ⟨T, hT, ?_⟩
  have := List.find?_some hT
  simpa using this

/--
**C5 (amended).**  In topic-based mode the orchestrator builds exactly one
topic section per key of the deduplicated mapping, in mapping order, whose
entry count equals the length of that topic's deduplicated article list —
including topics whose deduplicated list is empty, so zero-entry topic
sections do appear in the returned digest whenever deduplication empties a
topic's list.
-/
theorem run_builds_section_per_dedup_key (env : RunEnv) (h : env.topics ≠ []) :
    (runDigest env).1.topic_sections.map (fun ts => (ts.topic_id, ts.entries.length))
      = (pipelineMatches env).map fun p => (p.1, p.2.length) := by
  have hsec : (runDigest env).1.topic_sections = pipelineSections env := rfl
  rw [hsec, pipelineSections, if_pos h]
  have hkeys : ∀ p ∈ pipelineMatches env,
      ∃ T, topicsById env.topics p.1 = some T ∧ T.id = p.1 := by
    intro p hp
    apply topicsById_resolves
    apply match_articles_keys env.search env.now (pipelineArticles env) env.topics
    rw [pipelineMatches] at hp
    have hk := dedup_preserves_keys
      (match_articles_to_topics env.search env.now (pipelineArticles env) env.topics)
      (topicsById env.topics)
    have hmem : p.1 ∈ (deduplicate_across_topics
        (match_articles_to_topics env.search env.now (pipelineArticles env) env.topics)
        (topicsById env.topics)).map Prod.fst := List.mem_map_of_mem Prod.fst hp
    rw [hk] at hmem
    exact hmem
  generalize pipelineMatches env = ms at hkeys ⊢
  induction ms with
  | nil => simp
  | cons p rest ih =>
    rcases hkeys p (List.mem_cons_self p rest) with ⟨T, hT, hTid⟩
    simp only [List.filterMap_cons, hT, List.map_cons]
    rw [hTid, List.length_map, ih fun q hq => hkeys q (List.mem_cons_of_mem p hq)]

/--
**C6 (amended).**  The logged `entry_count` equals the sum of the entries
across all topic sections whenever that sum is nonzero, and the flat entry
count otherwise (in particular whenever there are no topic sections, but
also when sections exist and are all empty); and the logged status is
`"completed"` when no recipient is configured, `"sent"` when a recipient is
configured and delivery succeeded, and `"email_failed"` when a recipient is
configured and delivery failed.
-/
theorem log_entry_count_and_status (env : RunEnv) :
    ((runDigest env).2.entry_count =
      if ((runDigest env).1.topic_sections.map fun ts => ts.entries.length).sum ≠ 0
      then ((runDigest env).1.topic_sections.map fun ts => ts.entries.length).sum
      else (runDigest env).1.entries.length) ∧
    ((runDigest env).2.status =
      if env.recipient = "" then "completed"
      else if env.email_ok = true then "sent" else "email_failed") := by
  constructor
  · rfl
  · have hst : (runDigest env).2.status =
        if (if env.recipient ≠ "" then env.email_ok else false) = true then "sent"
        else if env.recipient = "" then "completed"
        else "email_failed" := rfl
    rw [hst]
    by_cases hr : env.recipient = ""
    · simp [hr]
    · cases he : env.email_ok with
      | true => simp [hr, he]
      | false => simp [hr, he]

/-! ### Concrete scenarios -/

/-- A regex oracle for concrete scenarios: patterns are matched as literal
substrings (case-insensitivity is immaterial here because all concrete
texts are pre-lowercased by the scorer) and never error. -/
def substrSearch : RegexSearch := fun p t => .ok (containsSub p t)

def topicAlpha : Topic := { id := 2, name := "Alpha", keywords := ["test"], priority := 50 }

def topicBravo : Topic := { id := 1, name := "Bravo", keywords := ["test"], priority := 50 }

/-- `{1: Bravo, 2: Alpha}` as a lookup. -/
def alphaBravoById : Nat → Option Topic := fun n =>
  if n = 1 then some topicBravo else if n = 2 then some topicAlpha else none

def sharedScored : ScoredArticle :=
  { article := { title := "Shared article", url := "https://shared.com" }
    score := 25
    matched_keywords := ["test"] }

def topicAI : Topic := { id := 1, name := "AI", keywords := ["test"], priority := 80 }

def topicSec : Topic := { id := 2, name := "Security", keywords := ["test"], priority := 70 }

def articleShared : Article := { title := "test article", url := "https://a.com" }

def articleDupA : Article := { title := "test one", url := "https://dup.com" }

def articleDupB : Article := { title := "test two", url := "https://dup.com" }

/-- One fetched article matching both enabled topics; the higher-priority
topic wins it at deduplication, leaving the other topic's list empty. -/
def envShared : RunEnv :=
  { search := substrSearch
    now := 0
    fetch_results := [some [articleShared]]
    extractor := fun _ => none
    blocked_keywords := []
    use_full_text := false
    topics := [topicAI, topicSec]
    summarize_one := fun a => a.title
    overview_summary := "overview"
    flat_summary := "flat"
    model_name := "model"
    recipient := ""
    email_ok := false }

/-- Two fetched articles with the same URL, both matching the single enabled
topic; deduplication removes both placements, leaving one empty section. -/
def envDup : RunEnv :=
  { search := substrSearch
    now := 0
    fetch_results := [some [articleDupA, articleDupB]]
    extractor := fun _ => none
    blocked_keywords := []
    use_full_text := false
    topics := [topicAI]
    summarize_one := fun a => a.title
    overview_summary := "overview"
    flat_summary := "flat"
    model_name := "model"
    recipient := ""
    email_ok := false }

/--
**C3 witness.**  The spec's scenario: topics "Bravo" (id 1) and "Alpha"
(id 2), both priority 50, share a URL scored 25.0; "Alpha" retains the
article and "Bravo" does not, in both iteration orders of the mapping.
-/
theorem deduplicate_tiebreak_winner_witness :
    deduplicate_across_topics [(2, [sharedScored]), (1, [sharedScored])] alphaBravoById
        = [(2, [sharedScored]), (1, [])] ∧
    deduplicate_across_topics [(1, [sharedScored]), (2, [sharedScored])] alphaBravoById
        = [(1, []), (2, [sharedScored])] :=
  deduplicate_tiebreak_winner alphaBravoById 2 1 topicAlpha topicBravo
    sharedScored sharedScored (by decide) rfl rfl rfl
    (Or.inr ⟨rfl, Or.inr ⟨rfl, by rw [String.lt_iff_toList_lt]; decide⟩⟩)

set_option maxRecDepth 100000 in
/--
**C5 counterexample.**  A run of the orchestrator in topic-based mode
(two enabled topics) whose returned digest contains a topic section with
zero entries: both topics match the one fetched article, the lower-priority
topic "Security" loses it at deduplication, and the loop in
`DigestPipeline.run` still builds a section for it.
-/
theorem zero_entry_section_counterexample :
    envShared.topics ≠ [] ∧
    (runDigest envShared).1.topic_sections.map (fun ts => (ts.topic_id, ts.entries.length))
      = [(1, 1), (2, 0)] ∧
    ∃ ts ∈ (runDigest envShared).1.topic_sections, ts.entries = [] := by
  with_unfolding_all decide

/--
**C5 witness** for the amended claim, at the same concrete run: the digest's
sections mirror the deduplicated mapping one-to-one, empty lists included.
-/
theorem run_builds_section_per_dedup_key_witness :
    (runDigest envShared).1.topic_sections.map (fun ts => (ts.topic_id, ts.entries.length))
      = (pipelineMatches envShared).map fun p => (p.1, p.2.length) :=
  run_builds_section_per_dedup_key envShared (by decide)

set_option maxRecDepth 100000 in
/--
**C6 counterexample.**  A run whose digest has a (single, empty) topic
section, where the logged `entry_count` is the flat entry count `2` even
though topic sections exist and their entry sum is `0` — refuting
"`entry_count` equals the sum of the entries across all topic sections
whenever topic sections exist".
-/
theorem entry_count_counterexample :
    (runDigest envDup).1.topic_sections ≠ [] ∧
    ((runDigest envDup).1.topic_sections.map fun ts => ts.entries.length).sum = 0 ∧
    (runDigest envDup).2.entry_count = 2 := by
  with_unfolding_all decide

def topicNoSpam : Topic :=
  { id := 3
    name := "NoSpam"
    keywords := ["news"]
    include_patterns := ["news"]
    exclude_patterns := ["spam"] }

def articleSpam : Article := { title := "news news spam news", url := "https://spam.com" }

/--
**C7 witness.**  A topic whose keywords and include patterns all match the
article still rejects it because one exclude pattern matches.
-/
theorem exclude_pattern_rejects_witness :
    score_article_for_topic substrSearch 0 articleSpam topicNoSpam = none :=
  exclude_pattern_rejects substrSearch 0 articleSpam topicNoSpam (by decide)
    ⟨"spam", by decide, rfl⟩

def articleLeak : Article :=
  { title := "Quarterly report"
    url := "https://leak.example"
    content_preview := "contains secret numbers"
    full_text := "public summary only" }

/--
**C10 witness.**  With the blocked term only in the preview, the article
survives full-text scope but is removed in the default title+preview scope.
-/
theorem blocklist_full_text_scope_witness :
    articleLeak ∈ filter_blocked_articles [articleLeak] ["secret"] true ∧
    articleLeak ∉ filter_blocked_articles [articleLeak] ["secret"] false :=
  blocklist_full_text_scope [articleLeak] articleLeak ["secret"]
    (by decide) (by decide) ⟨"secret", by decide, by decide⟩

end Pheme
